import Mathlib

/-!
# Verification of the Noblox CLI (src/noblox/src/main.rs)

A shallow embedding of the Rust program in `src/noblox/src/main.rs`.
The program reads a file path from the terminal, dispatches on the file
extension to a decoder helper, and prints the names of the root
instances of the decoded DOM.

External collaborators (the filesystem, `rbx_binary::from_reader`,
`Path::try_exists`) are modelled as fields of explicit environment
structures, so every embedded function is a pure function of an
environment and its arguments.  Rust panics (`unwrap` on `None`/`Err`)
are modelled by the `PanicOr` outcome type, and the observable side
effects of each call (which files were opened, which decoder helper was
invoked, which codec library function ran) are returned as an explicit
event trace.
-/

set_option autoImplicit false

namespace Noblox

/-- Outcome of running a Rust function that may panic: either the process
aborts (`panicked`), or the function returns a value. -/
inductive PanicOr (α : Type) where
  | panicked
  | value (v : α)
  deriving DecidableEq, Repr

/-- Byte stream of a file's contents, as handed to `rbx_binary::from_reader`
through a `BufReader`. -/
abbrev ByteStream := List Nat

/-- Model of `rbx_binary::DecodeError`: an opaque decode failure.  The
program never inspects it beyond pattern-matching `Err(_)`, so only its
identity matters; we carry a message string so that distinct errors exist. -/
structure DecodeError where
  msg : String
  deriving DecidableEq, Repr

/-- Model of `rbx_dom_weak` `Instance`: one node of the decoded DOM,
carrying its referent, display name, class name and the ordered list of
child referents. -/
structure Inst where
  referent : Nat
  name : String
  class_name : String
  children : List Nat
  deriving DecidableEq, Repr

/-- Model of `rbx_dom_weak::WeakDom`: a root referent plus an index from
referents to instances (modelled as an association list). -/
structure WeakDom where
  root_ref : Nat
  instances : List (Nat × Inst)
  deriving DecidableEq, Repr

/-- `WeakDom::get_by_ref`: look up an instance by referent in the index. -/
def WeakDom.get_by_ref (dom : WeakDom) (r : Nat) : Option Inst :=
  (dom.instances.find? (fun p => p.1 = r)).map Prod.snd

/-- Model of `std::path::PathBuf`: the path as typed by the user.  All
paths in scope are valid UTF-8, so `display` is the path string itself. -/
structure PathBuf where
  path : String
  deriving DecidableEq, Repr

/-- Split a character list on a separator character; the result is the
(never empty) list of groups between separators. -/
def splitOnChar (sep : Char) : List Char → List (List Char)
  | [] => [[]]
  | c :: cs =>
    match splitOnChar sep cs with
    | [] => [[c]]
    | g :: gs => if c = sep then [] :: g :: gs else (c :: g) :: gs

/-- The file-name component of a path: the last nonempty `/`-separated
component, or `none` for paths such as `""`, `"/"`, `"."`, `".."`
(mirroring `std::path::Path::file_name`). -/
def fileNameOf (s : String) : Option (List Char) :=
  match ((splitOnChar '/' s.data).filter (fun c => c ≠ [])).getLast? with
  | none => none
  | some f => if f = ['.'] ∨ f = ['.', '.'] then none else some f

/-- The index of the last `.` in a list of characters, if any. -/
def lastDotIdx (cs : List Char) : Option Nat :=
  match cs.reverse.findIdx? (fun c => c = '.') with
  | none => none
  | some j => some (cs.length - 1 - j)

/-- `Path::extension`: the part of the file name after its last `.`;
`none` when there is no file name, no `.`, or the only `.` begins the
file name (hidden files such as `.gitignore` have no extension). -/
def PathBuf.extension (p : PathBuf) : Option String :=
  match fileNameOf p.path with
  | none => none
  | some f =>
    match lastDotIdx f with
    | none => none
    | some 0 => none
    | some i => some (String.mk (f.drop (i + 1)))

/-- Whitespace as recognized by `str::trim`, restricted to the common
ASCII whitespace characters. -/
def isWhitespaceChar (c : Char) : Bool :=
  c = ' ' ∨ c = '\t' ∨ c = '\n' ∨ c = '\r'

/-- `str::trim`: remove leading and trailing whitespace. -/
def rustTrim (s : String) : String :=
  String.mk (((s.data.dropWhile isWhitespaceChar).reverse.dropWhile isWhitespaceChar).reverse)

/-- `Path::display` for the valid-UTF-8 paths in scope. -/
def PathBuf.display (p : PathBuf) : String := p.path

/-- Which external codec library decoded the stream. -/
inductive Codec where
  | binary
  | xml
  deriving DecidableEq, Repr

/-- Observable events of a run of the decode path: a `File::open` call on
a path, the dispatcher invoking one of its two helper functions, and a
codec library function (`rbx_binary::from_reader` or
`rbx_xml::from_reader`) running on the opened stream. -/
inductive Event where
  | openedFile (path : String)
  | invokedBinaryVariant
  | invokedXmlVariant
  | ranCodec (c : Codec)
  deriving DecidableEq, Repr

/-- Environment of the decode path: the filesystem (`none` when the file
cannot be opened for reading) and the external decoder
`rbx_binary::from_reader`. -/
structure Env where
  fs : String → Option ByteStream
  rbx_binary_from_reader : ByteStream → Except DecodeError WeakDom

/-- `get_dom_from_binary` (main.rs:188-192): opens the file — panicking,
via `unwrap`, when the open fails — wraps it in a `BufReader` and hands
it to `rbx_binary::from_reader`. -/
def get_dom_from_binary (env : Env) (file_path : PathBuf) :
    List Event × PanicOr (Except DecodeError WeakDom) :=
  match env.fs file_path.path with
  | none => ([Event.openedFile file_path.path], PanicOr.panicked)
  | some buffer =>
    ([Event.openedFile file_path.path, Event.ranCodec Codec.binary],
      PanicOr.value (env.rbx_binary_from_reader buffer))

/-- `get_dom_from_xml` (main.rs:196-200): opens the file — panicking when
the open fails — wraps it in a `BufReader` and hands it to
`rbx_binary::from_reader` (the source calls the binary codec here, not
`rbx_xml`). -/
def get_dom_from_xml (env : Env) (file_path : PathBuf) :
    List Event × PanicOr (Except DecodeError WeakDom) :=
  match env.fs file_path.path with
  | none => ([Event.openedFile file_path.path], PanicOr.panicked)
  | some buffer =>
    ([Event.openedFile file_path.path, Event.ranCodec Codec.binary],
      PanicOr.value (env.rbx_binary_from_reader buffer))

/-- The generic error message built at main.rs:147. -/
def errorMessageFor (p : PathBuf) : String :=
  "An error occurred while retrieving a DOM from the given file path: " ++ p.display

/-- Collapse a helper's result the way each recognized dispatch arm does
(main.rs:154-157 etc.): pass `Ok` through, replace any `Err` by the
generic error message. -/
def collapseErr (error_message : String) :
    PanicOr (Except DecodeError WeakDom) → PanicOr (Except String WeakDom)
  | PanicOr.panicked => PanicOr.panicked
  | PanicOr.value (Except.ok result) => PanicOr.value (Except.ok result)
  | PanicOr.value (Except.error _) => PanicOr.value (Except.error error_message)

/-- `get_dom_from_extension` (main.rs:144-184): reads the extension of the
path — panicking, via `unwrap`, when the path has none — and matches it
against the four recognized extensions, invoking `get_dom_from_binary`
for `rbxl`/`rbxm` and `get_dom_from_xml` for `rbxlx`/`rbxmx`; any decode
failure is replaced by the generic error message, and any other
extension returns that message without touching the file. -/
def get_dom_from_extension (env : Env) (path_buffer : PathBuf) :
    List Event × PanicOr (Except String WeakDom) :=
  match path_buffer.extension with
  | none => ([], PanicOr.panicked)
  | some extension =>
    let error_message := errorMessageFor path_buffer
    match extension with
    | "rbxl" =>
      let r := get_dom_from_binary env path_buffer
      (Event.invokedBinaryVariant :: r.1, collapseErr error_message r.2)
    | "rbxlx" =>
      let r := get_dom_from_xml env path_buffer
      (Event.invokedXmlVariant :: r.1, collapseErr error_message r.2)
    | "rbxm" =>
      let r := get_dom_from_binary env path_buffer
      (Event.invokedBinaryVariant :: r.1, collapseErr error_message r.2)
    | "rbxmx" =>
      let r := get_dom_from_xml env path_buffer
      (Event.invokedXmlVariant :: r.1, collapseErr error_message r.2)
    | _ => ([], PanicOr.value (Except.error error_message))

/-- The loop body of `main` (main.rs:30-33): for each child referent of
the root, look the instance up — panicking, via `unwrap`, when the
referent is missing from the index — and print one line `- {name}`. -/
def render_children (dom : WeakDom) : List Nat → PanicOr (List String)
  | [] => PanicOr.value []
  | r :: rs =>
    match dom.get_by_ref r with
    | none => PanicOr.panicked
    | some inst =>
      match render_children dom rs with
      | PanicOr.panicked => PanicOr.panicked
      | PanicOr.value tail => PanicOr.value (("- " ++ inst.name) :: tail)

/-- The listing `main` prints after a successful decode (main.rs:30-33):
`dom.root()` — which panics when the root referent is missing from the
index — followed by one `- {name}` line per root child. -/
def render_root_children (dom : WeakDom) : PanicOr (List String) :=
  match dom.get_by_ref dom.root_ref with
  | none => PanicOr.panicked
  | some root => render_children dom root.children

/-- One attempted read of a line from stdin: either the line that was
read, or a read failure (`read_line` returning `Err`). -/
inductive StdinLine where
  | line (s : String)
  | readErr
  deriving DecidableEq, Repr

/-- Environment of the terminal loop: `Path::try_exists` for each path
string (`Except.error` models an `io::Error` from the check). -/
structure TermEnv where
  tryExists : String → Except String Bool

/-- `get_file_path_from_terminal` (main.rs:65-139), driven by the finite
list of stdin lines still to come: each iteration reads and trims a
line (`read_stdin` returning `Err` restarts the loop), retries when
`try_exists` errs or reports the path missing, reads the extension —
panicking, via `unwrap`, on a path with none — and returns the path
when the extension is one of the four recognized ones, restarting
otherwise.  When the input list is exhausted the blocked loop is
modelled by `none`. -/
def get_file_path_from_terminal (env : TermEnv) :
    List StdinLine → PanicOr (Option PathBuf)
  | [] => PanicOr.value none
  | StdinLine.readErr :: rest => get_file_path_from_terminal env rest
  | StdinLine.line s :: rest =>
    match env.tryExists (rustTrim s) with
    | Except.error _ => get_file_path_from_terminal env rest
    | Except.ok false => get_file_path_from_terminal env rest
    | Except.ok true =>
      match (PathBuf.mk (rustTrim s)).extension with
      | none => PanicOr.panicked
      | some extension =>
        match extension with
        | "rbxl" => PanicOr.value (some (PathBuf.mk (rustTrim s)))
        | "rbxlx" => PanicOr.value (some (PathBuf.mk (rustTrim s)))
        | "rbxm" => PanicOr.value (some (PathBuf.mk (rustTrim s)))
        | "rbxmx" => PanicOr.value (some (PathBuf.mk (rustTrim s)))
        | _ => get_file_path_from_terminal env rest

/-- The four file extensions the program recognizes. -/
def recognizedExtensions : List String := ["rbxl", "rbxlx", "rbxm", "rbxmx"]

/-- The document of the spec's worked example: one top-level instance
named `Workspace` of class `Folder` containing one child named `Part1`
of class `Part`, under the synthetic root. -/
def exampleDom : WeakDom :=
  { root_ref := 0,
    instances :=
      [(0, { referent := 0, name := "ROOT", class_name := "DataModel", children := [1] }),
       (1, { referent := 1, name := "Workspace", class_name := "Folder", children := [2] }),
       (2, { referent := 2, name := "Part1", class_name := "Part", children := [] })] }

/-- An environment in which no file can be opened. -/
def unopenableEnv : Env :=
  { fs := fun _ => none,
    rbx_binary_from_reader := fun _ => Except.error { msg := "unused" } }

/-- An environment in which every file opens and decoding fails with a
malformed-header error. -/
def decodeFailEnv1 : Env :=
  { fs := fun _ => some [0],
    rbx_binary_from_reader := fun _ => Except.error { msg := "bad magic header" } }

/-- An environment in which every file opens and decoding fails with a
truncation error, distinct from the one of `decodeFailEnv1`. -/
def decodeFailEnv2 : Env :=
  { fs := fun _ => some [0],
    rbx_binary_from_reader := fun _ => Except.error { msg := "unexpected end of stream" } }

/-- An environment in which every file opens and decodes to the example
document. -/
def decodeOkEnv : Env :=
  { fs := fun _ => some [1],
    rbx_binary_from_reader := fun _ => Except.ok exampleDom }

/-- A terminal environment in which exactly the file `test.rbxl` exists. -/
def sampleTermEnv : TermEnv :=
  { tryExists := fun s => Except.ok (s == "test.rbxl") }

/-! ## Unfolding lemmas for the dispatcher -/

/-- A path without an extension makes the dispatcher panic at once,
before any event. -/
theorem gdfe_noext (env : Env) (p : PathBuf) (h : p.extension = none) :
    get_dom_from_extension env p = ([], PanicOr.panicked) := by
  simp [get_dom_from_extension, h]

/-- Dispatch on `rbxl` runs `get_dom_from_binary`. -/
theorem gdfe_rbxl (env : Env) (p : PathBuf) (h : p.extension = some "rbxl") :
    get_dom_from_extension env p =
      (Event.invokedBinaryVariant :: (get_dom_from_binary env p).1,
       collapseErr (errorMessageFor p) (get_dom_from_binary env p).2) := by
  simp [get_dom_from_extension, h]

/-- Dispatch on `rbxlx` runs `get_dom_from_xml`. -/
theorem gdfe_rbxlx (env : Env) (p : PathBuf) (h : p.extension = some "rbxlx") :
    get_dom_from_extension env p =
      (Event.invokedXmlVariant :: (get_dom_from_xml env p).1,
       collapseErr (errorMessageFor p) (get_dom_from_xml env p).2) := by
  simp [get_dom_from_extension, h]

/-- Dispatch on `rbxm` runs `get_dom_from_binary`. -/
theorem gdfe_rbxm (env : Env) (p : PathBuf) (h : p.extension = some "rbxm") :
    get_dom_from_extension env p =
      (Event.invokedBinaryVariant :: (get_dom_from_binary env p).1,
       collapseErr (errorMessageFor p) (get_dom_from_binary env p).2) := by
  simp [get_dom_from_extension, h]

/-- Dispatch on `rbxmx` runs `get_dom_from_xml`. -/
theorem gdfe_rbxmx (env : Env) (p : PathBuf) (h : p.extension = some "rbxmx") :
    get_dom_from_extension env p =
      (Event.invokedXmlVariant :: (get_dom_from_xml env p).1,
       collapseErr (errorMessageFor p) (get_dom_from_xml env p).2) := by
  simp [get_dom_from_extension, h]

/-- An unrecognized extension returns the generic error with an empty
event trace. -/
theorem gdfe_unrecognized (env : Env) (p : PathBuf) (ext : String)
    (h : p.extension = some ext) (h2 : ext ∉ recognizedExtensions) :
    get_dom_from_extension env p =
      ([], PanicOr.value (Except.error (errorMessageFor p))) := by
  simp only [recognizedExtensions, List.mem_cons, List.not_mem_nil, or_false, not_or] at h2
  obtain ⟨h3, h4, h5, h6⟩ := h2
  simp only [get_dom_from_extension, h]

/-- `collapseErr` yields `Ok` exactly when the helper yielded `Ok`. -/
theorem collapseErr_ok (em : String) (r : PanicOr (Except DecodeError WeakDom)) (d : WeakDom) :
    collapseErr em r = PanicOr.value (Except.ok d) ↔ r = PanicOr.value (Except.ok d) := by
  cases r with
  | panicked => simp [collapseErr]
  | value v => cases v <;> simp [collapseErr]

/-- `collapseErr` only ever returns the generic error message. -/
theorem collapseErr_error (em : String) (r : PanicOr (Except DecodeError WeakDom)) (m : String)
    (h : collapseErr em r = PanicOr.value (Except.error m)) : m = em := by
  cases r with
  | panicked => simp [collapseErr] at h
  | value v =>
    cases v with
    | ok d => simp [collapseErr] at h
    | error e => simp [collapseErr] at h; exact h.symm

/-- A successful run of `get_dom_from_binary` is exactly a successful
open followed by a successful `rbx_binary::from_reader`. -/
theorem get_dom_from_binary_ok (env : Env) (p : PathBuf) (d : WeakDom)
    (h : (get_dom_from_binary env p).2 = PanicOr.value (Except.ok d)) :
    ∃ bs, env.fs p.path = some bs ∧ env.rbx_binary_from_reader bs = Except.ok d := by
  cases hfs : env.fs p.path with
  | none => simp [get_dom_from_binary, hfs] at h
  | some bs =>
    simp only [get_dom_from_binary, hfs] at h
    exact ⟨bs, rfl, by injection h⟩

/-- For a recognized extension the dispatcher records invoking one of
its two helper functions. -/
theorem invoke_event_of_recognized (denv : Env) (p : PathBuf) (ext : String)
    (h : p.extension = some ext) (hr : ext ∈ recognizedExtensions) :
    Event.invokedBinaryVariant ∈ (get_dom_from_extension denv p).1 ∨
    Event.invokedXmlVariant ∈ (get_dom_from_extension denv p).1 := by
  simp only [recognizedExtensions, List.mem_cons, List.not_mem_nil, or_false] at hr
  rcases hr with rfl | rfl | rfl | rfl
  · exact Or.inl (by rw [gdfe_rbxl denv p h]; exact List.mem_cons_self _ _)
  · exact Or.inr (by rw [gdfe_rbxlx denv p h]; exact List.mem_cons_self _ _)
  · exact Or.inl (by rw [gdfe_rbxm denv p h]; exact List.mem_cons_self _ _)
  · exact Or.inr (by rw [gdfe_rbxmx denv p h]; exact List.mem_cons_self _ _)

/-- `render_children` on a list of referents that all resolve prints one
`- name` line per referent, in order. -/
theorem render_children_eq (dom : WeakDom) (refs : List Nat) (insts : List Inst)
    (h : refs.mapM dom.get_by_ref = some insts) :
    render_children dom refs = PanicOr.value (insts.map (fun i => "- " ++ i.name)) := by
  induction refs generalizing insts with
  | nil =>
    simp only [List.mapM_nil, pure, Option.some.injEq] at h
    subst h
    rfl
  | cons r rs ih =>
    rw [List.mapM_cons] at h
    cases hr : dom.get_by_ref r with
    | none => rw [hr] at h; simp at h
    | some i =>
      rw [hr] at h
      cases hrs : rs.mapM dom.get_by_ref with
      | none => rw [hrs] at h; simp at h
      | some is =>
        rw [hrs] at h
        simp only [Option.bind_eq_bind, Option.some_bind, Option.pure_def,
          Option.some.injEq] at h
        subst h
        simp [render_children, hr, ih is hrs]

/-! ## Claims -/

/-- C1: for every input path whose extension is `rbxlx` or `rbxmx` the
dispatcher invokes the XML decoder variant (`get_dom_from_xml`) and not
the binary one, for `rbxl` or `rbxm` it invokes the binary decoder
variant (`get_dom_from_binary`) and not the XML one, and for every
recognized extension the only codec that ever runs is the binary codec,
so the place/model distinction never changes which codec runs. -/
theorem C1_extension_routing (env : Env) (p : PathBuf) (ext : String)
    (h : p.extension = some ext) :
    ((ext = "rbxlx" ∨ ext = "rbxmx") →
      Event.invokedXmlVariant ∈ (get_dom_from_extension env p).1 ∧
      Event.invokedBinaryVariant ∉ (get_dom_from_extension env p).1) ∧
    ((ext = "rbxl" ∨ ext = "rbxm") →
      Event.invokedBinaryVariant ∈ (get_dom_from_extension env p).1 ∧
      Event.invokedXmlVariant ∉ (get_dom_from_extension env p).1) ∧
    (ext ∈ recognizedExtensions →
      ∀ c, Event.ranCodec c ∈ (get_dom_from_extension env p).1 → c = Codec.binary) := by
  refine ⟨?_, ?_, ?_⟩
  · rintro (rfl | rfl) <;>
      cases hfs : env.fs p.path <;>
        simp [gdfe_rbxlx, gdfe_rbxmx, h, get_dom_from_xml, hfs]
  · rintro (rfl | rfl) <;>
      cases hfs : env.fs p.path <;>
        simp [gdfe_rbxl, gdfe_rbxm, h, get_dom_from_binary, hfs]
  · intro hr c hc
    simp only [recognizedExtensions, List.mem_cons, List.not_mem_nil, or_false] at hr
    rcases hr with rfl | rfl | rfl | rfl <;>
      cases hfs : env.fs p.path <;>
        simp_all [gdfe_rbxl, gdfe_rbxlx, gdfe_rbxm, gdfe_rbxmx, h,
          get_dom_from_binary, get_dom_from_xml, hfs]

/-- Witness for C1 at the concrete path `a.rbxlx`. -/
theorem C1_extension_routing_witness :
    Event.invokedXmlVariant ∈ (get_dom_from_extension unopenableEnv (PathBuf.mk "a.rbxlx")).1 ∧
    Event.invokedBinaryVariant ∉ (get_dom_from_extension unopenableEnv (PathBuf.mk "a.rbxlx")).1 :=
  (C1_extension_routing unopenableEnv (PathBuf.mk "a.rbxlx") "rbxlx" (by decide)).1
    (Or.inl rfl)

/-- C2: `get_dom_from_binary` and `get_dom_from_xml` compute the same
function — both open the file into a `BufReader` and hand it to
`rbx_binary::from_reader` — so for every environment and path they
produce the same events and the same result. -/
theorem C2_xml_equals_binary (env : Env) (p : PathBuf) :
    get_dom_from_xml env p = get_dom_from_binary env p := rfl

/-- C3 counterexample: on the spec's example document (a top-level
`Workspace : Folder` containing `Part1 : Part`) the program renders the
single line `- Workspace`, not the claimed two lines
`- Workspace: Folder` and `\t- Part1: Part`: the loop in `main` prints
only the root's direct children, names without class names, and never
recurses. -/
theorem C3_render_counterexample :
    render_root_children exampleDom = PanicOr.value ["- Workspace"] ∧
    render_root_children exampleDom ≠
      PanicOr.value ["- Workspace: Folder", "\t- Part1: Part"] := by
  constructor
  · rfl
  · decide

/-- C3 (amended): rendering visits only the root's direct children, in
stored order, printing one line `- name` per child with no class name
and no indentation; on the example document it yields exactly the one
line `- Workspace`. -/
theorem C3_render_flat (dom : WeakDom) (root : Inst) (insts : List Inst)
    (hroot : dom.get_by_ref dom.root_ref = some root)
    (hc : root.children.mapM dom.get_by_ref = some insts) :
    render_root_children dom = PanicOr.value (insts.map (fun i => "- " ++ i.name)) ∧
    (dom = exampleDom → render_root_children dom = PanicOr.value ["- Workspace"]) := by
  constructor
  · unfold render_root_children
    rw [hroot]
    exact render_children_eq dom root.children insts hc
  · intro hd
    subst hd
    rfl

/-- Witness for C3 (amended) at the example document. -/
theorem C3_render_flat_witness :
    render_root_children exampleDom = PanicOr.value ["- Workspace"] :=
  (C3_render_flat exampleDom
      { referent := 0, name := "ROOT", class_name := "DataModel", children := [1] }
      [{ referent := 1, name := "Workspace", class_name := "Folder", children := [2] }]
      (by decide) (by decide)).2 rfl

/-- C4 counterexample: the path `foo.txt`, whose file cannot be opened
for reading (`fs` yields `none`), makes `get_dom_from_extension` return
the generic error value — it does not panic, because the unrecognized
extension is rejected before the file is ever opened. -/
theorem C4_panic_counterexample :
    unopenableEnv.fs "foo.txt" = none ∧
    (get_dom_from_extension unopenableEnv (PathBuf.mk "foo.txt")).2 =
      PanicOr.value (Except.error
        "An error occurred while retrieving a DOM from the given file path: foo.txt") ∧
    (get_dom_from_extension unopenableEnv (PathBuf.mk "foo.txt")).2 ≠
      PanicOr.panicked := by
  refine ⟨rfl, rfl, ?_⟩
  intro hc
  rw [show (get_dom_from_extension unopenableEnv (PathBuf.mk "foo.txt")).2 =
      PanicOr.value (Except.error
        "An error occurred while retrieving a DOM from the given file path: foo.txt")
    from rfl] at hc
  exact PanicOr.noConfusion hc

/-- C4 (amended): a path with no extension makes `get_dom_from_extension`
panic; a path whose file cannot be opened makes both codec helpers
panic, and makes `get_dom_from_extension` panic provided its extension
is recognized — while an unopenable path with an unrecognized extension
yields an error value instead. -/
theorem C4_panics (env : Env) (p : PathBuf) :
    (p.extension = none → get_dom_from_extension env p = ([], PanicOr.panicked)) ∧
    (env.fs p.path = none →
      (get_dom_from_binary env p).2 = PanicOr.panicked ∧
      (get_dom_from_xml env p).2 = PanicOr.panicked) ∧
    (env.fs p.path = none → ∀ ext, p.extension = some ext →
      ext ∈ recognizedExtensions →
      (get_dom_from_extension env p).2 = PanicOr.panicked) := by
  refine ⟨fun h => gdfe_noext env p h, ?_, ?_⟩
  · intro hfs
    constructor <;> simp [get_dom_from_binary, get_dom_from_xml, hfs]
  · intro hfs ext hext hr
    simp only [recognizedExtensions, List.mem_cons, List.not_mem_nil, or_false] at hr
    rcases hr with rfl | rfl | rfl | rfl <;>
      simp [gdfe_rbxl, gdfe_rbxlx, gdfe_rbxm, gdfe_rbxmx, hext,
        get_dom_from_binary, get_dom_from_xml, hfs, collapseErr]

/-- Witness for C4 (amended): the recognized path `a.rbxl` over an
unopenable file panics. -/
theorem C4_panics_witness :
    (get_dom_from_extension unopenableEnv (PathBuf.mk "a.rbxl")).2 = PanicOr.panicked :=
  (C4_panics unopenableEnv (PathBuf.mk "a.rbxl")).2.2 rfl "rbxl" (by decide) (by decide)

/-- C5: a path with an unrecognized extension is rejected with the
generic error before any file content is read: the result is the error
value and the event trace contains no `File::open` call at all. -/
theorem C5_reject_before_open (env : Env) (p : PathBuf) (ext : String)
    (h : p.extension = some ext) (h2 : ext ∉ recognizedExtensions) :
    get_dom_from_extension env p =
      ([], PanicOr.value (Except.error (errorMessageFor p))) ∧
    ∀ q, Event.openedFile q ∉ (get_dom_from_extension env p).1 := by
  have he := gdfe_unrecognized env p ext h h2
  refine ⟨he, ?_⟩
  intro q
  rw [he]
  exact List.not_mem_nil _

/-- Witness for C5 at the concrete path `foo.txt`. -/
theorem C5_reject_before_open_witness :
    get_dom_from_extension unopenableEnv (PathBuf.mk "foo.txt") =
      ([], PanicOr.value (Except.error (errorMessageFor (PathBuf.mk "foo.txt")))) :=
  (C5_reject_before_open unopenableEnv (PathBuf.mk "foo.txt") "txt"
    (by decide) (by decide)).1

/-- C6: when the codec fails, the dispatcher returns the one generic
error message determined only by the path, discarding the underlying
error: two environments whose decoders fail with different errors on
the same path produce identical results. -/
theorem C6_generic_error (env1 env2 : Env) (p : PathBuf) (ext : String)
    (bs1 bs2 : ByteStream) (e1 e2 : DecodeError)
    (h : p.extension = some ext) (hr : ext ∈ recognizedExtensions)
    (h1 : env1.fs p.path = some bs1) (h2 : env2.fs p.path = some bs2)
    (hd1 : env1.rbx_binary_from_reader bs1 = Except.error e1)
    (hd2 : env2.rbx_binary_from_reader bs2 = Except.error e2) :
    (get_dom_from_extension env1 p).2 =
      PanicOr.value (Except.error (errorMessageFor p)) ∧
    get_dom_from_extension env1 p = get_dom_from_extension env2 p := by
  simp only [recognizedExtensions, List.mem_cons, List.not_mem_nil, or_false] at hr
  rcases hr with rfl | rfl | rfl | rfl <;>
    simp [gdfe_rbxl, gdfe_rbxlx, gdfe_rbxm, gdfe_rbxmx, h,
      get_dom_from_binary, get_dom_from_xml, h1, h2, hd1, hd2, collapseErr]

/-- Witness for C6: a malformed-header failure and a truncation failure
on `a.rbxm` yield the same returned error. -/
theorem C6_generic_error_witness :
    get_dom_from_extension decodeFailEnv1 (PathBuf.mk "a.rbxm") =
      get_dom_from_extension decodeFailEnv2 (PathBuf.mk "a.rbxm") :=
  (C6_generic_error decodeFailEnv1 decodeFailEnv2 (PathBuf.mk "a.rbxm") "rbxm"
    [0] [0] { msg := "bad magic header" } { msg := "unexpected end of stream" }
    (by decide) (by decide) rfl rfl rfl rfl).2

/-- C7: decoding is all-or-nothing: an `Ok` result of the dispatcher is
exactly the complete graph produced by one successful run of the codec
on the opened stream, and an `Err` result carries only the generic
message — no graph, partial or otherwise, accompanies a failure. -/
theorem C7_all_or_nothing (env : Env) (p : PathBuf) :
    (∀ d, (get_dom_from_extension env p).2 = PanicOr.value (Except.ok d) →
      ∃ bs, env.fs p.path = some bs ∧ env.rbx_binary_from_reader bs = Except.ok d) ∧
    (∀ m, (get_dom_from_extension env p).2 = PanicOr.value (Except.error m) →
      m = errorMessageFor p) := by
  cases hx : p.extension with
  | none =>
    constructor <;> intro a ha <;> rw [gdfe_noext env p hx] at ha <;>
      exact PanicOr.noConfusion ha
  | some ext =>
    by_cases hrec : ext ∈ recognizedExtensions
    · simp only [recognizedExtensions, List.mem_cons, List.not_mem_nil, or_false] at hrec
      have hxml : get_dom_from_xml env p = get_dom_from_binary env p := rfl
      rcases hrec with rfl | rfl | rfl | rfl <;>
        [rw [gdfe_rbxl env p hx]; rw [gdfe_rbxlx env p hx, hxml];
         rw [gdfe_rbxm env p hx]; rw [gdfe_rbxmx env p hx, hxml]] <;>
        exact ⟨fun d hd => get_dom_from_binary_ok env p d
            ((collapseErr_ok (errorMessageFor p) _ d).mp hd),
          fun m hm => collapseErr_error (errorMessageFor p) _ m hm⟩
    · rw [gdfe_unrecognized env p ext hx hrec]
      constructor
      · intro d hd
        exact absurd (PanicOr.value.inj hd) (fun hh => Except.noConfusion hh)
      · intro m hm
        exact (Except.error.inj (PanicOr.value.inj hm)).symm

/-- Witness for C7: in an environment where decoding succeeds with the
example document, the dispatcher's `Ok` output is that codec output. -/
theorem C7_all_or_nothing_witness :
    ∃ bs, decodeOkEnv.fs "a.rbxm" = some bs ∧
      decodeOkEnv.rbx_binary_from_reader bs = Except.ok exampleDom :=
  (C7_all_or_nothing decodeOkEnv (PathBuf.mk "a.rbxm")).1 exampleDom rfl

/-- C8: after a successful decode, `main` lists exactly the document's
top-level instances — the children of the synthetic root — one line
each, in their stored order, and nothing else. -/
theorem C8_lists_root_children (dom : WeakDom) (root : Inst) (insts : List Inst)
    (hroot : dom.get_by_ref dom.root_ref = some root)
    (hc : root.children.mapM dom.get_by_ref = some insts) :
    render_root_children dom =
      PanicOr.value (insts.map (fun i => "- " ++ i.name)) := by
  unfold render_root_children
  rw [hroot]
  exact render_children_eq dom root.children insts hc

/-- Witness for C8 at the example document. -/
theorem C8_lists_root_children_witness :
    render_root_children exampleDom =
      PanicOr.value
        ([({ referent := 1, name := "Workspace", class_name := "Folder",
             children := [2] } : Inst)].map (fun i => "- " ++ i.name)) :=
  C8_lists_root_children exampleDom
    { referent := 0, name := "ROOT", class_name := "DataModel", children := [1] }
    [{ referent := 1, name := "Workspace", class_name := "Folder", children := [2] }]
    (by decide) (by decide)

/-- C9: rendering is deterministic: two runs of the rendering traversal
on the same decoded graph produce byte-identical line sequences. -/
theorem C9_render_deterministic (d1 d2 : WeakDom) (h : d1 = d2) :
    render_root_children d1 = render_root_children d2 := by
  rw [h]

/-- Witness for C9 at the example document. -/
theorem C9_render_deterministic_witness :
    render_root_children exampleDom = render_root_children exampleDom :=
  C9_render_deterministic exampleDom exampleDom rfl

/-- C10: every path returned by `get_file_path_from_terminal` was
verified to exist and carries one of the four recognized extensions, so
the unrecognized-extension branch of `get_dom_from_extension` is
unreachable for it: dispatching such a path always records invoking one
of the two decoder helpers. -/
theorem C10_terminal_invariant (env : TermEnv) (inputs : List StdinLine) (p : PathBuf)
    (h : get_file_path_from_terminal env inputs = PanicOr.value (some p)) :
    env.tryExists p.path = Except.ok true ∧
    (∃ ext, p.extension = some ext ∧ ext ∈ recognizedExtensions) ∧
    ∀ denv : Env,
      Event.invokedBinaryVariant ∈ (get_dom_from_extension denv p).1 ∨
      Event.invokedXmlVariant ∈ (get_dom_from_extension denv p).1 := by
  induction inputs with
  | nil =>
    rw [show get_file_path_from_terminal env [] = PanicOr.value none from rfl] at h
    exact absurd (PanicOr.value.inj h) (fun hh => Option.noConfusion hh)
  | cons hd rest ih =>
    cases hd with
    | readErr => exact ih h
    | line s =>
      simp only [get_file_path_from_terminal] at h
      split at h
      · exact ih h
      · exact ih h
      · split at h
        · exact PanicOr.noConfusion h
        · rename_i hte x ext hext
          split at h
          · obtain rfl : PathBuf.mk (rustTrim s) = p :=
              Option.some.inj (PanicOr.value.inj h)
            exact ⟨hte, ⟨"rbxl", hext, by decide⟩,
              fun denv => invoke_event_of_recognized denv _ "rbxl" hext (by decide)⟩
          · obtain rfl : PathBuf.mk (rustTrim s) = p :=
              Option.some.inj (PanicOr.value.inj h)
            exact ⟨hte, ⟨"rbxlx", hext, by decide⟩,
              fun denv => invoke_event_of_recognized denv _ "rbxlx" hext (by decide)⟩
          · obtain rfl : PathBuf.mk (rustTrim s) = p :=
              Option.some.inj (PanicOr.value.inj h)
            exact ⟨hte, ⟨"rbxm", hext, by decide⟩,
              fun denv => invoke_event_of_recognized denv _ "rbxm" hext (by decide)⟩
          · obtain rfl : PathBuf.mk (rustTrim s) = p :=
              Option.some.inj (PanicOr.value.inj h)
            exact ⟨hte, ⟨"rbxmx", hext, by decide⟩,
              fun denv => invoke_event_of_recognized denv _ "rbxmx" hext (by decide)⟩
          · exact ih h

/-- Witness for C10: entering ` test.rbxl ` in the sample terminal
environment returns that path, which exists and is recognized. -/
theorem C10_terminal_invariant_witness :
    sampleTermEnv.tryExists (PathBuf.mk "test.rbxl").path = Except.ok true ∧
    (∃ ext, (PathBuf.mk "test.rbxl").extension = some ext ∧
      ext ∈ recognizedExtensions) ∧
    ∀ denv : Env,
      Event.invokedBinaryVariant ∈
        (get_dom_from_extension denv (PathBuf.mk "test.rbxl")).1 ∨
      Event.invokedXmlVariant ∈
        (get_dom_from_extension denv (PathBuf.mk "test.rbxl")).1 :=
  C10_terminal_invariant sampleTermEnv [StdinLine.line " test.rbxl "]
    (PathBuf.mk "test.rbxl") (by decide)

end Noblox
